import Mathlib

/-!
Verification of the task-completion polling / transfer-retry orchestrator of
`dayan_sync` (files `dayan_sync/download.py` and `dayan_sync/upload.py`).

The orchestrator functions of `download.py` are shallowly embedded as pure
Lean functions.  External collaborators (the status oracle of
`dayan_sync.manage`, and the transfer executable reached through
`run_cmd`/`create_cmd` of `dayan_sync.utils`/`dayan_sync.transfer`, none of
which are under `src/`) are modelled as call-indexed traces: the k-th call to
a collaborator reads entry k of the trace, reflecting that remote state may
change between calls (the spec explicitly denies snapshot semantics for the
status oracle).

Python's `for x in lst: ... lst.remove(x)` iterates by index, so removing the
current element shifts the tail left and the element right after the removed
one is skipped for the rest of that `for` loop (it stays in the list).  The
cycle functions below reproduce this with an explicit `skip` flag: after a
removal the next list element is moved past without being processed.
-/

namespace DayanSync

/-- Modelled from the spec: the external collaborators of the orchestrator.
`dayan_sync.manage.RayvisionManageTask` (not under `src/`) provides
`get_task_status` / `get_sub_status` / `get_render_type` /
`output_file_names` / `is_task_end` (spec section 6), and
`run_cmd` + `create_cmd` (also not under `src/`) invoke the external transfer
executable whose only success signal is exit code 0 (spec section 4.2).
Every field is indexed by a call counter: `subStatus k t` is task `t`'s
sub-task status-code list as reported by the k-th `get_task_status` call,
`isEnd k t` the result of the k-th `is_task_end` call, and `exitCode k` the
exit code of the k-th transfer command run. -/
structure Env where
  subStatus : Nat → Nat → List String
  renderTypes : Nat → Nat → List String
  outputNames : Nat → Nat → List String
  isEnd : Nat → Nat → Bool
  exitCode : Nat → Nat

/-- Modelled from the spec: `get_sub_status(get_task_status(ids))` at oracle
call `k` — the per-task sub-task status lists of all queried tasks,
flattened into one list of status codes (spec section 6). -/
def aggSubs (env : Env) (k : Nat) (ids : List Nat) : List String :=
  (ids.map fun t => env.subStatus k t).flatten

/-- Modelled from the spec: `get_render_type(get_task_status(ids))` at oracle
call `k`, flattened over the queried tasks. -/
def aggRenderTypes (env : Env) (k : Nat) (ids : List Nat) : List String :=
  (ids.map fun t => env.renderTypes k t).flatten

/-- Modelled from the spec: `output_file_names(get_task_status(ids))` at
oracle call `k`, flattened over the queried tasks. -/
def aggOutputNames (env : Env) (k : Nat) (ids : List Nat) : List String :=
  (ids.map fun t => env.outputNames k t).flatten

/-- Outcome of a sequence of transfer commands: `res` is `.error ()` when a
command exited nonzero and `DownloadFailed` was raised, `c` is the advanced
transfer-call counter and `log` records each command actually run as
(output name, exit code). -/
structure RunResult where
  res : Except Unit Unit
  c : Nat
  log : List (String × Nat)

/-- One `run_cmd` per output name, in order; raises (`.error`) on the first
nonzero exit code and runs no further command (mirrors the
`tranfer_code != 0: raise DownloadFailed` checks in `_run_download` and
`create_cmd`, download.py lines 542-551 and 484-493). -/
def cmdLoop (env : Env) : List String → Nat → RunResult
  | [], c => ⟨.ok (), c, []⟩
  | n :: ns, c =>
    let code := env.exitCode c
    if code ≠ 0 then ⟨.error (), c + 1, [(n, code)]⟩
    else
      let r := cmdLoop env ns (c + 1)
      ⟨r.res, r.c, (n, code) :: r.log⟩

/-- Result of `_run_download`: also returns the advanced oracle-call
counter, since `_run_download` itself queries `get_task_status` once to
obtain the output file names. -/
structure DlResult where
  res : Except Unit Unit
  oK : Nat
  c : Nat
  log : List (String × Nat)

/-- `_run_download` (download.py lines 495-551) in the `server_path=None`
form used by every orchestrator: one `get_task_status` call fetches the
output file names of the passed tasks, then one transfer command runs per
output file name, raising `DownloadFailed` on the first nonzero exit. -/
def run_download (env : Env) (tasks : List Nat) (oK c : Nat) : DlResult :=
  let r := cmdLoop env (aggOutputNames env oK tasks) c
  ⟨r.res, oK + 1, r.c, r.log⟩

/-- The per-task output path `str(task_id) + suffix` built by
`_run_cc_download`. -/
def ccOutputs (tasks : List Nat) (suffix : String) : List String :=
  tasks.map fun t => toString t ++ suffix

/-- `_run_cc_download` (download.py lines 432-482): for `download_type`
'block' (resp. 'render') it runs one transfer command per task with output
`str(task_id) + '\at_result'` (resp. `'\render_result'`), raising
`DownloadFailed` on a nonzero exit; for every other `download_type` —
including the default `None` — neither branch is taken and NO command is
run at all. -/
def run_cc_download (env : Env) (tasks : List Nat) (downloadType : Option String)
    (c : Nat) : RunResult :=
  if downloadType = some "block" then
    cmdLoop env (ccOutputs tasks "\\at_result") c
  else if downloadType = some "render" then
    cmdLoop env (ccOutputs tasks "\\render_result") c
  else ⟨.ok (), c, []⟩

/-- State carried out of one polling cycle of `download_block` /
`auto_download_cc_after_task_completed`. -/
structure CycleOut where
  tasks : List Nat
  oK : Nat
  c : Nat
  log : List (String × Nat)

/-- Body of one `while True` cycle of `download_block` (download.py lines
171-194).  `pre` holds the elements already passed by the Python index
(kept or skipped), `rem` those still ahead, `skip` is set right after a
removal (index semantics: the next element is passed unprocessed).  Each
iteration makes its own `get_task_status` call on the FULL current list
(`pre ++ cur :: rest`), asserts that '45' is absent, and on '25' in the
flattened statuses runs `_run_cc_download` for the current task, removing
it only when no `DownloadFailed` was raised.  `.error` is the assertion
failure, carrying the transfer log accumulated up to the abort. -/
def download_block_cycle (env : Env) (dt : Option String) :
    List Nat → List Nat → Bool → Nat → Nat → List (String × Nat) →
    Except (List (String × Nat)) CycleOut
  | pre, [], _, oK, c, log => .ok ⟨pre, oK, c, log⟩
  | pre, cur :: rest, true, oK, c, log =>
    download_block_cycle env dt (pre ++ [cur]) rest false oK c log
  | pre, cur :: rest, false, oK, c, log =>
    let subs := aggSubs env oK (pre ++ cur :: rest)
    if "45" ∈ subs then .error log
    else if "25" ∈ subs then
      let r := run_cc_download env [cur] dt c
      match r.res with
      | .ok _ =>
        download_block_cycle env dt ((pre ++ [cur]).erase cur) rest true
          (oK + 1) r.c (log ++ r.log)
      | .error _ =>
        download_block_cycle env dt (pre ++ [cur]) rest false (oK + 1) r.c
          (log ++ r.log)
    else download_block_cycle env dt (pre ++ [cur]) rest false (oK + 1) c log

/-- The fueled outer `while True` loop of `download_block`: exits normally
(`.ok`) only at the `else: break` branch taken when the working set is
empty, returning the final working set and transfer log; `.error` is the
propagated assertion failure; `none` means the fuel ran out before the
loop finished. -/
def download_block (env : Env) (dt : Option String) :
    Nat → List Nat → Nat → Nat → List (String × Nat) →
    Option (Except (List (String × Nat)) (List Nat × List (String × Nat)))
  | 0, _, _, _, _ => none
  | fuel + 1, tasks, oK, c, log =>
    if tasks.isEmpty then some (.ok (tasks, log))
    else
      match download_block_cycle env dt [] tasks false oK c log with
      | .error e => some (.error e)
      | .ok out => download_block env dt fuel out.tasks out.oK out.c out.log

/-- Comparison of status-code strings by their character codes, mirroring
Python's lexicographic string order used by `sorted`. -/
def natListLe : List Nat → List Nat → Bool
  | [], _ => true
  | _ :: _, [] => false
  | x :: xs, y :: ys => if x < y then true else if y < x then false else natListLe xs ys

/-- String order backing `sorted` on status codes. -/
def strLe (a b : String) : Bool :=
  natListLe (a.data.map Char.toNat) (b.data.map Char.toNat)

/-- Insertion step of the sort modelling Python's `sorted`. -/
def insertStr (a : String) : List String → List String
  | [] => [a]
  | b :: l => if strLe a b then a :: b :: l else b :: insertStr a l

/-- Python's `sorted` on a list of status-code strings. -/
def sortStrs : List String → List String
  | [] => []
  | a :: l => insertStr a (sortStrs l)

/-- The `is_done` predicate of `auto_download_cc_after_task_completed`
(download.py line 411): the set of flattened sub-task statuses has exactly
one element, or exactly two elements which sorted are `['25', '30']`. -/
def is_done (subs : List String) : Bool :=
  subs.dedup.length == 1 ||
    (subs.dedup.length == 2 && sortStrs subs.dedup == ["25", "30"])

/-- What one iteration of `auto_download_cc_after_task_completed` does with
the polled data for the current task. -/
inductive CcStep where
  | abort
  | fired
  | skipped
deriving DecidableEq

/-- Per-iteration decision of `auto_download_cc_after_task_completed`
(download.py lines 409-421): first the `assert '45' not in
sub_task_status_list`, then the transfer fires exactly when 'Rebuild' is
among the render types, more than two render-type entries exist, and
`is_done` holds. -/
def cc_task_step (subs rts : List String) : CcStep :=
  if "45" ∈ subs then .abort
  else if "Rebuild" ∈ rts ∧ 2 < rts.length ∧ is_done subs then .fired
  else .skipped

/-- The two ways a cycle of `auto_download_cc_after_task_completed` can
raise: the '45' assertion, or an uncaught `DownloadFailed` from
`_run_cc_download`. -/
inductive CcErr where
  | assertIllegal
  | downloadFailed
deriving DecidableEq

/-- Body of one cycle of `auto_download_cc_after_task_completed`
(download.py lines 400-423).  Same per-iteration oracle call on the full
current list and same removal/skip mechanics as `download_block_cycle`,
but the fire condition is `cc_task_step` and — unlike `download_block` —
the `_run_cc_download` call is NOT wrapped in try/except, so a transfer
failure propagates out of the loop at once. -/
def auto_download_cc_cycle (env : Env) (dt : Option String) :
    List Nat → List Nat → Bool → Nat → Nat → List (String × Nat) →
    Except (CcErr × List (String × Nat)) CycleOut
  | pre, [], _, oK, c, log => .ok ⟨pre, oK, c, log⟩
  | pre, cur :: rest, true, oK, c, log =>
    auto_download_cc_cycle env dt (pre ++ [cur]) rest false oK c log
  | pre, cur :: rest, false, oK, c, log =>
    let subs := aggSubs env oK (pre ++ cur :: rest)
    let rts := aggRenderTypes env oK (pre ++ cur :: rest)
    match cc_task_step subs rts with
    | .abort => .error (.assertIllegal, log)
    | .fired =>
      let r := run_cc_download env [cur] dt c
      match r.res with
      | .error _ => .error (.downloadFailed, log ++ r.log)
      | .ok _ =>
        auto_download_cc_cycle env dt ((pre ++ [cur]).erase cur) rest true
          (oK + 1) r.c (log ++ r.log)
    | .skipped =>
      auto_download_cc_cycle env dt (pre ++ [cur]) rest false (oK + 1) c log

/-- Fueled outer loop of `auto_download_cc_after_task_completed`. -/
def auto_download_cc (env : Env) (dt : Option String) :
    Nat → List Nat → Nat → Nat → List (String × Nat) →
    Option (Except (CcErr × List (String × Nat)) (List Nat × List (String × Nat)))
  | 0, _, _, _, _ => none
  | fuel + 1, tasks, oK, c, log =>
    if tasks.isEmpty then some (.ok (tasks, log))
    else
      match auto_download_cc_cycle env dt [] tasks false oK c log with
      | .error e => some (.error e)
      | .ok out => auto_download_cc env dt fuel out.tasks out.oK out.c out.log

/-- State carried out of one cycle of `auto_download_after_task_completed`
(it also advances the `is_task_end` call counter). -/
structure AfterOut where
  tasks : List Nat
  endK : Nat
  oK : Nat
  c : Nat
  log : List (String × Nat)

/-- Body of one cycle of `auto_download_after_task_completed` (download.py
lines 335-351): per task one `is_task_end` call; when it returns true the
task is downloaded via `_run_download` — with NO try/except, so a
`DownloadFailed` propagates immediately (`.error` carries the working set
at the moment of the raise and the transfer log) — and on success the task
is removed from the list being iterated (with the index-skip). -/
def auto_after_cycle (env : Env) :
    List Nat → List Nat → Bool → Nat → Nat → Nat → List (String × Nat) →
    Except (List Nat × List (String × Nat)) AfterOut
  | pre, [], _, endK, oK, c, log => .ok ⟨pre, endK, oK, c, log⟩
  | pre, cur :: rest, true, endK, oK, c, log =>
    auto_after_cycle env (pre ++ [cur]) rest false endK oK c log
  | pre, cur :: rest, false, endK, oK, c, log =>
    if env.isEnd endK cur then
      let r := run_download env [cur] oK c
      match r.res with
      | .error _ => .error (pre ++ cur :: rest, log ++ r.log)
      | .ok _ =>
        auto_after_cycle env ((pre ++ [cur]).erase cur) rest true (endK + 1)
          r.oK r.c (log ++ r.log)
    else auto_after_cycle env (pre ++ [cur]) rest false (endK + 1) oK c log

/-- Fueled outer loop of `auto_download_after_task_completed`. -/
def auto_download_after_task_completed (env : Env) :
    Nat → List Nat → Nat → Nat → Nat → List (String × Nat) →
    Option (Except (List Nat × List (String × Nat)) (List Nat × List (String × Nat)))
  | 0, _, _, _, _, _ => none
  | fuel + 1, tasks, endK, oK, c, log =>
    if tasks.isEmpty then some (.ok (tasks, log))
    else
      match auto_after_cycle env [] tasks false endK oK c log with
      | .error e => some (.error e)
      | .ok out =>
        auto_download_after_task_completed env fuel out.tasks out.endK out.oK
          out.c out.log

/-- State carried out of one cycle of `_auto_download_tool`. -/
structure ToolOut where
  tasks : List Nat
  failed : List Nat
  endK : Nat
  oK : Nat
  c : Nat

/-- Body of one cycle of `_auto_download_tool` (download.py lines 265-286):
the cycle iterates over the ORIGINAL list (`for task_id in task_id_list`)
while removals go to a copy, so no index-skip occurs.  Every task is
downloaded every cycle; `DownloadFailed` is caught (`download_flag`); the
task is appended to the failure list iff `is_task_end` was true AND the
download raised, and removed from the copy iff `is_task_end` was true. -/
def auto_download_tool_cycle (env : Env) :
    List Nat → List Nat → List Nat → Nat → Nat → Nat → ToolOut
  | [], copy, failed, endK, oK, c => ⟨copy, failed, endK, oK, c⟩
  | t :: rest, copy, failed, endK, oK, c =>
    let e := env.isEnd endK t
    let r := run_download env [t] oK c
    let isErr : Bool := match r.res with | .error _ => true | .ok _ => false
    let failed' := if e && isErr then failed ++ [t] else failed
    let copy' := if e then copy.erase t else copy
    auto_download_tool_cycle env rest copy' failed' (endK + 1) r.oK r.c

/-- The task ids a cycle of `_auto_download_tool` appends to the failure
list, as the spec describes them: those whose `is_task_end` answer was true
and whose download attempt that cycle raised `DownloadFailed` (counter
evolution identical to `auto_download_tool_cycle`). -/
def auto_cycle_failures (env : Env) : List Nat → Nat → Nat → Nat → List Nat
  | [], _, _, _ => []
  | t :: rest, endK, oK, c =>
    let e := env.isEnd endK t
    let r := run_download env [t] oK c
    let isErr : Bool := match r.res with | .error _ => true | .ok _ => false
    (if e && isErr then [t] else []) ++ auto_cycle_failures env rest (endK + 1) r.oK r.c

/-- Fueled outer loop of `_auto_download_tool` (download.py lines 264-290):
when the working set drains the loop breaks and then
`raise DownloadFailed(... download_failed_list)` fires iff the failure list
is non-empty.  `.error (failed, tasks)` carries the failure list named by
the aggregate error together with the (empty) working set at the exit;
`.ok tasks` is the normal return. -/
def auto_download_tool (env : Env) :
    Nat → List Nat → List Nat → Nat → Nat → Nat →
    Option (Except (List Nat × List Nat) (List Nat))
  | 0, _, _, _, _, _ => none
  | fuel + 1, tasks, failed, endK, oK, c =>
    if tasks.isEmpty then
      some (if failed.isEmpty then .ok tasks else .error (failed, tasks))
    else
      let out := auto_download_tool_cycle env tasks tasks failed endK oK c
      auto_download_tool env fuel out.tasks out.failed out.endK out.oK out.c

/-- The retry loop of `upload_config` (upload.py lines 259-268) for one
configuration file: `fails n` tells whether the n-th `run_cmd` invocation
(attempts counted from 1) returns a truthy (failing) result.  The source
counts failures in `times`, raising `RayvisionError` when a failure occurs
with `times == 9`; here `remaining = 9 - times`, so the raise happens on a
failure with `remaining = 0`.  `.error n` means the terminal error was
raised at the n-th invocation; `.ok n` means the loop broke (success) at
the n-th invocation. -/
def upload_config_retry (fails : Nat → Bool) : Nat → Nat → Except Nat Nat
  | remaining, attempt =>
    if fails attempt then
      match remaining with
      | 0 => .error attempt
      | r + 1 => upload_config_retry fails r (attempt + 1)
    else .ok attempt

/-- The whole retry wrapper of `upload_config` for one command: starts with
`times = 0` (nine retries remaining) at the first invocation. -/
def upload_config (fails : Nat → Bool) : Except Nat Nat :=
  upload_config_retry fails 9 1

/-- One unit submitted to the thread pool by `thread_pool_upload`: the
arguments `upload_asset` is invoked with. -/
structure Submission where
  uploadJsonPath : String
  isDb : Bool
  kwargs : List (String × String)

/-- Python `dict.pop(key)`: the remaining mapping, or `none` (KeyError)
when the key is absent. -/
def popKey (k : String) (kw : List (String × String)) :
    Option (List (String × String)) :=
  if (kw.lookup k).isSome then some (kw.filter fun p => p.1 ≠ k) else none

/-- `thread_pool_upload` (upload.py lines 347-359): `kwargs.pop("is_db")`
runs before the submission loop, so a missing 'is_db' key raises KeyError
(`.error`) with nothing submitted; otherwise exactly one `upload_asset`
unit is submitted per element of `upload_pool`, each with `is_db=False`
hard-wired and the remaining kwargs forwarded. -/
def thread_pool_upload (uploadPool : List String)
    (kwargs : List (String × String)) : Except Unit (List Submission) :=
  match popKey "is_db" kwargs with
  | none => .error ()
  | some kw => .ok (uploadPool.map fun p => ⟨p, false, kw⟩)

/-! ### Concrete environments used to evaluate the orchestrators -/

/-- Every task is remotely ended and has no output files, so each download
attempt trivially succeeds. -/
def envAllEnd : Env :=
  ⟨fun _ _ => [], fun _ _ => [], fun _ _ => [], fun _ _ => true, fun _ => 0⟩

/-- Every task is remotely ended, every task has one output file and every
transfer command fails (exit code 1). -/
def envEndFail : Env :=
  ⟨fun _ _ => [], fun _ _ => [], fun _ t => ["f" ++ toString t],
    fun _ _ => true, fun _ => 1⟩

/-- Every task's sub-task status list is `['25']` (done) at every moment and
every transfer command succeeds. -/
def envAll25 : Env :=
  ⟨fun _ _ => ["25"], fun _ _ => [], fun _ _ => [], fun _ _ => false,
    fun _ => 0⟩

/-- Task 1's sub-task statuses are `['25']`, every other task's are `['20']`;
every transfer command succeeds. -/
def envSplit25 : Env :=
  ⟨fun _ t => if t = 1 then ["25"] else ["20"], fun _ _ => [], fun _ _ => [],
    fun _ _ => false, fun _ => 0⟩

/-- The first `get_task_status` call reports `['25']` for every task, every
later call reports `['45']`; every transfer command fails (exit code 1). -/
def envShift45 : Env :=
  ⟨fun k _ => if k = 0 then ["25"] else ["45"], fun _ _ => [], fun _ _ => [],
    fun _ _ => false, fun _ => 1⟩

/-- Every task's sub-task status list is `['20']` (rendering) at every
moment. -/
def envAll20 : Env :=
  ⟨fun _ _ => ["20"], fun _ _ => [], fun _ _ => [], fun _ _ => false,
    fun _ => 0⟩

/-- Every task's sub-task status list is `['45']` (illegal) at every
moment. -/
def envAll45 : Env :=
  ⟨fun _ _ => ["45"], fun _ _ => [], fun _ _ => [], fun _ _ => false,
    fun _ => 0⟩

/-! ### Helper lemmas -/

theorem aggSubs_mem (env : Env) (k : Nat) (ids : List Nat) (s : String) :
    s ∈ aggSubs env k ids ↔ ∃ t ∈ ids, s ∈ env.subStatus k t := by
  simp [aggSubs]

theorem aggRenderTypes_mem (env : Env) (k : Nat) (ids : List Nat) (s : String) :
    s ∈ aggRenderTypes env k ids ↔ ∃ t ∈ ids, s ∈ env.renderTypes k t := by
  simp [aggRenderTypes]

theorem cmdLoop_single_ok (env : Env) (n : String) (c : Nat)
    (h : env.exitCode c = 0) :
    cmdLoop env [n] c = ⟨.ok (), c + 1, [(n, 0)]⟩ := by
  simp [cmdLoop, h]

theorem run_cc_download_block (env : Env) (x c : Nat) :
    run_cc_download env [x] (some "block") c =
      cmdLoop env [toString x ++ "\\at_result"] c := by
  simp [run_cc_download, ccOutputs]

theorem run_cc_download_render (env : Env) (x c : Nat) :
    run_cc_download env [x] (some "render") c =
      cmdLoop env [toString x ++ "\\render_result"] c := by
  simp [run_cc_download, ccOutputs]

theorem run_cc_download_other (env : Env) (tasks : List Nat)
    (dt : Option String) (c : Nat) (h1 : dt ≠ some "block")
    (h2 : dt ≠ some "render") :
    run_cc_download env tasks dt c = ⟨.ok (), c, []⟩ := by
  simp [run_cc_download, h1, h2]

theorem erase_append_sublist (cur : Nat) (pre rest : List Nat) :
    (((pre ++ [cur]).erase cur) ++ rest).Sublist (pre ++ cur :: rest) := by
  have h := (List.erase_sublist cur (pre ++ [cur])).append (List.Sublist.refl rest)
  simpa using h

theorem download_block_cycle_sublist (env : Env) (dt : Option String) :
    ∀ (rem pre : List Nat) (skip : Bool) (oK c : Nat)
      (log : List (String × Nat)) (out : CycleOut),
      download_block_cycle env dt pre rem skip oK c log = .ok out →
      out.tasks.Sublist (pre ++ rem) := by
  intro rem
  induction rem with
  | nil =>
    intro pre skip oK c log out h
    cases skip <;> (simp only [download_block_cycle] at h; cases h; simp)
  | cons cur rest ih =>
    intro pre skip oK c log out h
    cases skip with
    | true =>
      simp only [download_block_cycle] at h
      simpa using ih (pre ++ [cur]) false oK c log out h
    | false =>
      by_cases h45 : "45" ∈ aggSubs env oK (pre ++ cur :: rest)
      · simp [download_block_cycle, h45] at h
      · by_cases h25 : "25" ∈ aggSubs env oK (pre ++ cur :: rest)
        · simp only [download_block_cycle, h45, if_false, if_neg, h25, if_pos,
            if_true] at h
          cases hres : (run_cc_download env [cur] dt c).res with
          | ok v =>
            rw [hres] at h
            have hsub := ih _ true _ _ _ out h
            exact hsub.trans (erase_append_sublist cur pre rest)
          | error e =>
            rw [hres] at h
            simpa using ih _ false _ _ _ out h
        · simp only [download_block_cycle, h45, h25, if_false, if_neg] at h
          simpa using ih _ false _ _ _ out h

theorem auto_download_cc_cycle_sublist (env : Env) (dt : Option String) :
    ∀ (rem pre : List Nat) (skip : Bool) (oK c : Nat)
      (log : List (String × Nat)) (out : CycleOut),
      auto_download_cc_cycle env dt pre rem skip oK c log = .ok out →
      out.tasks.Sublist (pre ++ rem) := by
  intro rem
  induction rem with
  | nil =>
    intro pre skip oK c log out h
    cases skip <;> (simp only [auto_download_cc_cycle] at h; cases h; simp)
  | cons cur rest ih =>
    intro pre skip oK c log out h
    cases skip with
    | true =>
      simp only [auto_download_cc_cycle] at h
      simpa using ih (pre ++ [cur]) false oK c log out h
    | false =>
      simp only [auto_download_cc_cycle] at h
      cases hstep : cc_task_step (aggSubs env oK (pre ++ cur :: rest))
          (aggRenderTypes env oK (pre ++ cur :: rest)) with
      | abort => rw [hstep] at h; cases h
      | fired =>
        rw [hstep] at h
        cases hres : (run_cc_download env [cur] dt c).res with
        | error e => rw [hres] at h; cases h
        | ok v =>
          rw [hres] at h
          exact (ih _ true _ _ _ out h).trans (erase_append_sublist cur pre rest)
      | skipped =>
        rw [hstep] at h
        simpa using ih _ false _ _ _ out h

theorem auto_after_cycle_sublist (env : Env) :
    ∀ (rem pre : List Nat) (skip : Bool) (endK oK c : Nat)
      (log : List (String × Nat)) (out : AfterOut),
      auto_after_cycle env pre rem skip endK oK c log = .ok out →
      out.tasks.Sublist (pre ++ rem) := by
  intro rem
  induction rem with
  | nil =>
    intro pre skip endK oK c log out h
    cases skip <;> (simp only [auto_after_cycle] at h; cases h; simp)
  | cons cur rest ih =>
    intro pre skip endK oK c log out h
    cases skip with
    | true =>
      simp only [auto_after_cycle] at h
      simpa using ih (pre ++ [cur]) false endK oK c log out h
    | false =>
      simp only [auto_after_cycle] at h
      by_cases he : env.isEnd endK cur = true
      · rw [if_pos he] at h
        cases hres : (run_download env [cur] oK c).res with
        | error e => rw [hres] at h; cases h
        | ok v =>
          rw [hres] at h
          exact (ih _ true _ _ _ _ out h).trans (erase_append_sublist cur pre rest)
      · rw [if_neg he] at h
        simpa using ih _ false _ _ _ _ out h

theorem auto_download_tool_cycle_sublist (env : Env) :
    ∀ (proc copy failed : List Nat) (endK oK c : Nat),
      (auto_download_tool_cycle env proc copy failed endK oK c).tasks.Sublist
        copy := by
  intro proc
  induction proc with
  | nil => intro copy failed endK oK c; simp [auto_download_tool_cycle]
  | cons t rest ih =>
    intro copy failed endK oK c
    simp only [auto_download_tool_cycle]
    refine (ih _ _ _ _ _).trans ?_
    by_cases he : env.isEnd endK t = true
    · simp only [he, if_pos, if_true]
      exact List.erase_sublist t copy
    · simp only [he, if_neg, if_false]
      exact List.Sublist.refl copy

theorem download_block_cycle_log_prefix (env : Env) (dt : Option String) :
    ∀ (rem pre : List Nat) (skip : Bool) (oK c : Nat)
      (log : List (String × Nat)) (out : CycleOut),
      download_block_cycle env dt pre rem skip oK c log = .ok out →
      log <+: out.log := by
  intro rem
  induction rem with
  | nil =>
    intro pre skip oK c log out h
    cases skip <;> (simp only [download_block_cycle] at h; cases h; simp)
  | cons cur rest ih =>
    intro pre skip oK c log out h
    cases skip with
    | true =>
      simp only [download_block_cycle] at h
      exact ih (pre ++ [cur]) false oK c log out h
    | false =>
      by_cases h45 : "45" ∈ aggSubs env oK (pre ++ cur :: rest)
      · simp [download_block_cycle, h45] at h
      · by_cases h25 : "25" ∈ aggSubs env oK (pre ++ cur :: rest)
        · simp only [download_block_cycle, h45, if_false, if_neg, h25, if_pos,
            if_true] at h
          cases hres : (run_cc_download env [cur] dt c).res with
          | ok v =>
            rw [hres] at h
            exact (List.prefix_append log _).trans (ih _ true _ _ _ out h)
          | error e =>
            rw [hres] at h
            exact (List.prefix_append log _).trans (ih _ false _ _ _ out h)
        · simp only [download_block_cycle, h45, h25, if_false, if_neg] at h
          exact ih _ false _ _ _ out h

theorem download_block_cycle_ok (env : Env) (dt : Option String)
    (h45 : ∀ k t, "45" ∉ env.subStatus k t) :
    ∀ (rem pre : List Nat) (skip : Bool) (oK c : Nat)
      (log : List (String × Nat)),
      ∃ out, download_block_cycle env dt pre rem skip oK c log = .ok out := by
  intro rem
  induction rem with
  | nil => intro pre skip oK c log; cases skip <;> exact ⟨_, rfl⟩
  | cons cur rest ih =>
    intro pre skip oK c log
    cases skip with
    | true => simpa only [download_block_cycle] using ih (pre ++ [cur]) false oK c log
    | false =>
      have h45x : "45" ∉ aggSubs env oK (pre ++ cur :: rest) := by
        rw [aggSubs_mem]
        rintro ⟨t, -, hmem⟩
        exact h45 _ t hmem
      by_cases h25 : "25" ∈ aggSubs env oK (pre ++ cur :: rest)
      · simp only [download_block_cycle, h45x, h25, if_false, if_neg, if_pos,
          if_true]
        cases hres : (run_cc_download env [cur] dt c).res with
        | ok v => exact ih _ true _ _ _
        | error e => exact ih _ false _ _ _
      · simp only [download_block_cycle, h45x, h25, if_false, if_neg]
        exact ih _ false _ _ _

theorem download_block_cycle_noop (env : Env) (dt : Option String)
    (h25 : ∀ k t, "25" ∉ env.subStatus k t)
    (h45 : ∀ k t, "45" ∉ env.subStatus k t) :
    ∀ (rem pre : List Nat) (oK c : Nat) (log : List (String × Nat)),
      download_block_cycle env dt pre rem false oK c log =
        .ok ⟨pre ++ rem, oK + rem.length, c, log⟩ := by
  intro rem
  induction rem with
  | nil => intro pre oK c log; simp [download_block_cycle]
  | cons cur rest ih =>
    intro pre oK c log
    have h45x : "45" ∉ aggSubs env oK (pre ++ cur :: rest) := by
      rw [aggSubs_mem]
      rintro ⟨t, -, hmem⟩
      exact h45 _ t hmem
    have h25x : "25" ∉ aggSubs env oK (pre ++ cur :: rest) := by
      rw [aggSubs_mem]
      rintro ⟨t, -, hmem⟩
      exact h25 _ t hmem
    simp only [download_block_cycle, h45x, h25x, if_false, if_neg, ih]
    have hl : (pre ++ [cur]) ++ rest = pre ++ cur :: rest := by simp
    have hn : oK + 1 + rest.length = oK + (cur :: rest).length := by
      simp [List.length_cons]; omega
    rw [hl, hn]

theorem aggregate_no_rebuild_step (env : Env) (oK : Nat) (ids : List Nat)
    (h45 : ∀ k t, "45" ∉ env.subStatus k t)
    (hrb : ∀ k t, "Rebuild" ∉ env.renderTypes k t) :
    cc_task_step (aggSubs env oK ids) (aggRenderTypes env oK ids) = .skipped := by
  have h45x : "45" ∉ aggSubs env oK ids := by
    rw [aggSubs_mem]
    rintro ⟨t, -, hmem⟩
    exact h45 _ t hmem
  have hrbx : "Rebuild" ∉ aggRenderTypes env oK ids := by
    rw [aggRenderTypes_mem]
    rintro ⟨t, -, hmem⟩
    exact hrb _ t hmem
  simp [cc_task_step, h45x, hrbx]

theorem auto_download_cc_cycle_noop (env : Env) (dt : Option String)
    (h45 : ∀ k t, "45" ∉ env.subStatus k t)
    (hrb : ∀ k t, "Rebuild" ∉ env.renderTypes k t) :
    ∀ (rem pre : List Nat) (oK c : Nat) (log : List (String × Nat)),
      auto_download_cc_cycle env dt pre rem false oK c log =
        .ok ⟨pre ++ rem, oK + rem.length, c, log⟩ := by
  intro rem
  induction rem with
  | nil => intro pre oK c log; simp [auto_download_cc_cycle]
  | cons cur rest ih =>
    intro pre oK c log
    simp only [auto_download_cc_cycle,
      aggregate_no_rebuild_step env oK (pre ++ cur :: rest) h45 hrb, ih]
    have hl : (pre ++ [cur]) ++ rest = pre ++ cur :: rest := by simp
    have hn : oK + 1 + rest.length = oK + (cur :: rest).length := by
      simp [List.length_cons]; omega
    rw [hl, hn]

theorem cmdLoop_single_of_ok (env : Env) (n : String) (c : Nat) (v : Unit)
    (h : (cmdLoop env [n] c).res = .ok v) :
    cmdLoop env [n] c = ⟨.ok (), c + 1, [(n, 0)]⟩ := by
  by_cases hc : env.exitCode c = 0
  · exact cmdLoop_single_ok env n c hc
  · simp [cmdLoop, hc] at h

theorem mem_erase_append_of_ne (x cur : Nat) (pre rest : List Nat)
    (hx : x ≠ cur) (hmem : x ∈ pre ++ cur :: rest) :
    x ∈ ((pre ++ [cur]).erase cur) ++ rest := by
  rcases List.mem_append.mp hmem with h1 | h1
  · refine List.mem_append.mpr (.inl ?_)
    rw [List.mem_erase_of_ne hx]
    exact List.mem_append.mpr (.inl h1)
  · rcases List.mem_cons.mp h1 with h2 | h2
    · exact absurd h2 hx
    · exact List.mem_append.mpr (.inr h2)

theorem download_block_cycle_removed_logged (env : Env) (dt : Option String)
    (nm : Nat → String)
    (hrun : ∀ x c, run_cc_download env [x] dt c = cmdLoop env [nm x] c) :
    ∀ (rem pre : List Nat) (skip : Bool) (oK c : Nat)
      (log : List (String × Nat)) (out : CycleOut) (x : Nat),
      download_block_cycle env dt pre rem skip oK c log = .ok out →
      x ∈ pre ++ rem → x ∉ out.tasks → (nm x, 0) ∈ out.log := by
  intro rem
  induction rem with
  | nil =>
    intro pre skip oK c log out x h hmem hnot
    cases skip <;>
      (simp only [download_block_cycle] at h; cases h;
       exact absurd (by simpa using hmem) hnot)
  | cons cur rest ih =>
    intro pre skip oK c log out x h hmem hnot
    cases skip with
    | true =>
      simp only [download_block_cycle] at h
      exact ih (pre ++ [cur]) false oK c log out x h (by simpa using hmem) hnot
    | false =>
      by_cases h45 : "45" ∈ aggSubs env oK (pre ++ cur :: rest)
      · simp [download_block_cycle, h45] at h
      · by_cases h25 : "25" ∈ aggSubs env oK (pre ++ cur :: rest)
        · simp only [download_block_cycle, h45, if_false, if_neg, h25, if_pos,
            if_true] at h
          cases hres : (run_cc_download env [cur] dt c).res with
          | ok v =>
            rw [hres] at h
            by_cases hx : x = cur
            · subst hx
              have hlog : (run_cc_download env [x] dt c).log = [(nm x, 0)] := by
                rw [hrun] at hres ⊢
                rw [cmdLoop_single_of_ok env (nm x) c v hres]
              have hpre := download_block_cycle_log_prefix env dt rest _ true
                _ _ _ out h
              refine hpre.sublist.mem ?_
              rw [hlog]
              simp
            · exact ih _ true _ _ _ out x h
                (mem_erase_append_of_ne x cur pre rest hx hmem) hnot
          | error e =>
            rw [hres] at h
            exact ih _ false _ _ _ out x h (by simpa using hmem) hnot
        · simp only [download_block_cycle, h45, h25, if_false, if_neg] at h
          exact ih _ false _ _ _ out x h (by simpa using hmem) hnot

theorem download_block_cycle_log_const (env : Env) (dt : Option String)
    (h1 : dt ≠ some "block") (h2 : dt ≠ some "render") :
    ∀ (rem pre : List Nat) (skip : Bool) (oK c : Nat)
      (log : List (String × Nat)) (out : CycleOut),
      download_block_cycle env dt pre rem skip oK c log = .ok out →
      out.log = log := by
  intro rem
  induction rem with
  | nil =>
    intro pre skip oK c log out h
    cases skip <;> (simp only [download_block_cycle] at h; cases h; rfl)
  | cons cur rest ih =>
    intro pre skip oK c log out h
    cases skip with
    | true =>
      simp only [download_block_cycle] at h
      exact ih (pre ++ [cur]) false oK c log out h
    | false =>
      by_cases h45 : "45" ∈ aggSubs env oK (pre ++ cur :: rest)
      · simp [download_block_cycle, h45] at h
      · by_cases h25 : "25" ∈ aggSubs env oK (pre ++ cur :: rest)
        · simp only [download_block_cycle, h45, if_false, if_neg, h25, if_pos,
            if_true, run_cc_download_other env [cur] dt c h1 h2,
            List.append_nil] at h
          exact ih _ true _ _ _ out h
        · simp only [download_block_cycle, h45, h25, if_false, if_neg] at h
          exact ih _ false _ _ _ out h

theorem auto_download_tool_cycle_failed (env : Env) :
    ∀ (proc copy failed : List Nat) (endK oK c : Nat),
      (auto_download_tool_cycle env proc copy failed endK oK c).failed =
        failed ++ auto_cycle_failures env proc endK oK c := by
  intro proc
  induction proc with
  | nil =>
    intro copy failed endK oK c
    simp [auto_download_tool_cycle, auto_cycle_failures]
  | cons t rest ih =>
    intro copy failed endK oK c
    simp only [auto_download_tool_cycle, auto_cycle_failures, ih]
    cases hres : (run_download env [t] oK c).res with
    | ok v =>
      by_cases he : env.isEnd endK t = true <;> simp [he, List.append_assoc]
    | error e =>
      by_cases he : env.isEnd endK t = true <;> simp [he, List.append_assoc]

theorem auto_download_tool_cycle_mem_untouched (env : Env) :
    ∀ (proc copy failed : List Nat) (endK oK c : Nat) (x : Nat),
      x ∉ proc →
      (x ∈ (auto_download_tool_cycle env proc copy failed endK oK c).tasks ↔
        x ∈ copy) := by
  intro proc
  induction proc with
  | nil =>
    intro copy failed endK oK c x _
    simp [auto_download_tool_cycle]
  | cons t rest ih =>
    intro copy failed endK oK c x hx
    have hxt : x ≠ t := fun h => hx (h ▸ List.mem_cons_self t rest)
    have hxr : x ∉ rest := fun h => hx (List.mem_cons_of_mem t h)
    simp only [auto_download_tool_cycle]
    rw [ih _ _ _ _ _ x hxr]
    by_cases he : env.isEnd endK t = true
    · simp only [he, if_pos, if_true]
      exact List.mem_erase_of_ne hxt
    · simp [he]

theorem auto_download_tool_cycle_mem (env : Env) :
    ∀ (proc copy failed : List Nat) (endK oK c : Nat),
      proc.Nodup → copy.Nodup →
      ∀ i : Fin proc.length, proc.get i ∈ copy →
        (proc.get i ∈
            (auto_download_tool_cycle env proc copy failed endK oK c).tasks ↔
          env.isEnd (endK + i.1) (proc.get i) = false) := by
  intro proc
  induction proc with
  | nil =>
    intro copy failed endK oK c _ _ i
    exact absurd i.2 (by simp)
  | cons t rest ih =>
    intro copy failed endK oK c hproc hcopy i hmem
    have htr : t ∉ rest := (List.nodup_cons.mp hproc).1
    rcases i with ⟨iv, hi⟩
    cases iv with
    | zero =>
      simp only [List.get] at hmem ⊢
      simp only [auto_download_tool_cycle]
      rw [auto_download_tool_cycle_mem_untouched env rest _ _ _ _ _ t htr]
      by_cases he : env.isEnd endK t = true
      · simp only [he, if_pos, if_true]
        constructor
        · intro hmem2
          exact absurd ((hcopy.mem_erase_iff).mp hmem2).1 (by simp)
        · intro hfalse
          simp [Nat.add_zero, he] at hfalse
      · simp only [he, if_neg, if_false]
        simp only [Nat.add_zero]
        constructor
        · intro _
          simpa using he
        · intro _
          exact hmem
    | succ j =>
      have hj : j < rest.length := by simpa using hi
      simp only [List.get, Fin.val_mk] at hmem ⊢
      simp only [auto_download_tool_cycle]
      have hcopy2 : (if env.isEnd endK t = true then copy.erase t else copy).Nodup := by
        by_cases he : env.isEnd endK t = true <;> simp [he, hcopy, hcopy.erase]
      have hx : rest.get ⟨j, hj⟩ ∈ rest := List.get_mem rest j hj
      have hxt : rest.get ⟨j, hj⟩ ≠ t := fun h => htr (h ▸ hx)
      have hmem2 : rest.get ⟨j, hj⟩ ∈
          (if env.isEnd endK t = true then copy.erase t else copy) := by
        by_cases he : env.isEnd endK t = true
        · simp only [he, if_pos, if_true]
          rw [List.mem_erase_of_ne hxt]
          exact hmem
        · simpa [he] using hmem
      have harith : endK + (j + 1) = endK + 1 + j := by omega
      rw [harith]
      exact ih _ _ _ _ _ (List.nodup_cons.mp hproc).2 hcopy2 ⟨j, hj⟩ hmem2

theorem download_block_drained (env : Env) (dt : Option String) :
    ∀ (fuel : Nat) (ts : List Nat) (oK c : Nat) (log : List (String × Nat))
      (fin : List Nat) (lg : List (String × Nat)),
      download_block env dt fuel ts oK c log = some (.ok (fin, lg)) →
      fin = [] := by
  intro fuel
  induction fuel with
  | zero => intro ts oK c log fin lg h; simp [download_block] at h
  | succ fuel ih =>
    intro ts oK c log fin lg h
    simp only [download_block] at h
    by_cases he : ts.isEmpty = true
    · rw [if_pos he] at h
      simp only [Option.some.injEq, Except.ok.injEq, Prod.mk.injEq] at h
      rw [← h.1]
      simpa using he
    · rw [if_neg he] at h
      cases hc : download_block_cycle env dt [] ts false oK c log with
      | error e => rw [hc] at h; simp at h
      | ok out => rw [hc] at h; exact ih _ _ _ _ _ _ h

theorem auto_download_cc_drained (env : Env) (dt : Option String) :
    ∀ (fuel : Nat) (ts : List Nat) (oK c : Nat) (log : List (String × Nat))
      (fin : List Nat) (lg : List (String × Nat)),
      auto_download_cc env dt fuel ts oK c log = some (.ok (fin, lg)) →
      fin = [] := by
  intro fuel
  induction fuel with
  | zero => intro ts oK c log fin lg h; simp [auto_download_cc] at h
  | succ fuel ih =>
    intro ts oK c log fin lg h
    simp only [auto_download_cc] at h
    by_cases he : ts.isEmpty = true
    · rw [if_pos he] at h
      simp only [Option.some.injEq, Except.ok.injEq, Prod.mk.injEq] at h
      rw [← h.1]
      simpa using he
    · rw [if_neg he] at h
      cases hc : auto_download_cc_cycle env dt [] ts false oK c log with
      | error e => rw [hc] at h; simp at h
      | ok out => rw [hc] at h; exact ih _ _ _ _ _ _ h

theorem auto_download_after_drained (env : Env) :
    ∀ (fuel : Nat) (ts : List Nat) (endK oK c : Nat)
      (log : List (String × Nat)) (fin : List Nat) (lg : List (String × Nat)),
      auto_download_after_task_completed env fuel ts endK oK c log =
        some (.ok (fin, lg)) →
      fin = [] := by
  intro fuel
  induction fuel with
  | zero =>
    intro ts endK oK c log fin lg h
    simp [auto_download_after_task_completed] at h
  | succ fuel ih =>
    intro ts endK oK c log fin lg h
    simp only [auto_download_after_task_completed] at h
    by_cases he : ts.isEmpty = true
    · rw [if_pos he] at h
      simp only [Option.some.injEq, Except.ok.injEq, Prod.mk.injEq] at h
      rw [← h.1]
      simpa using he
    · rw [if_neg he] at h
      cases hc : auto_after_cycle env [] ts false endK oK c log with
      | error e => rw [hc] at h; simp at h
      | ok out => rw [hc] at h; exact ih _ _ _ _ _ _ _ h

theorem auto_download_tool_drain (env : Env) :
    ∀ (fuel : Nat) (ts failed : List Nat) (endK oK c : Nat)
      (r : Except (List Nat × List Nat) (List Nat)),
      auto_download_tool env fuel ts failed endK oK c = some r →
      (∃ l, r = .error (l, []) ∧ failed <+: l ∧ l ≠ []) ∨
        (r = .ok [] ∧ failed = []) := by
  intro fuel
  induction fuel with
  | zero => intro ts failed endK oK c r h; simp [auto_download_tool] at h
  | succ fuel ih =>
    intro ts failed endK oK c r h
    simp only [auto_download_tool] at h
    by_cases he : ts.isEmpty = true
    · rw [if_pos he] at h
      have hts : ts = [] := by simpa using he
      subst hts
      by_cases hf : failed.isEmpty = true
      · right
        have hfe : failed = [] := by simpa using hf
        rw [if_pos hf] at h
        simp only [Option.some.injEq] at h
        exact ⟨h.symm, hfe⟩
      · left
        rw [if_neg hf] at h
        simp only [Option.some.injEq] at h
        refine ⟨failed, h.symm, List.prefix_refl failed, ?_⟩
        simpa using hf
    · rw [if_neg he] at h
      rcases ih _ _ _ _ _ _ h with ⟨l, hr, hpre, hne⟩ | ⟨hr, hf0⟩
      · left
        refine ⟨l, hr, ?_, hne⟩
        refine List.IsPrefix.trans ?_ hpre
        rw [auto_download_tool_cycle_failed]
        exact List.prefix_append failed _
      · right
        refine ⟨hr, ?_⟩
        rw [auto_download_tool_cycle_failed] at hf0
        exact List.append_eq_nil.mp hf0 |>.1

theorem download_block_noerror (env : Env) (dt : Option String)
    (h45 : ∀ k t, "45" ∉ env.subStatus k t) :
    ∀ (fuel : Nat) (ts : List Nat) (oK c : Nat) (log : List (String × Nat))
      (e : List (String × Nat)),
      download_block env dt fuel ts oK c log ≠ some (.error e) := by
  intro fuel
  induction fuel with
  | zero => intro ts oK c log e h; simp [download_block] at h
  | succ fuel ih =>
    intro ts oK c log e h
    simp only [download_block] at h
    by_cases he : ts.isEmpty = true
    · rw [if_pos he] at h
      simp at h
    · rw [if_neg he] at h
      obtain ⟨out, hout⟩ := download_block_cycle_ok env dt h45 ts [] false oK c log
      rw [hout] at h
      exact ih _ _ _ _ _ h

theorem upload_config_retry_allFail (fails : Nat → Bool)
    (h : ∀ n, fails n = true) :
    ∀ (rem att : Nat), upload_config_retry fails rem att = .error (att + rem) := by
  intro rem
  induction rem with
  | zero => intro att; simp [upload_config_retry, h att]
  | succ r ih =>
    intro att
    simp only [upload_config_retry, h att, if_pos, if_true]
    rw [ih (att + 1)]
    have : att + 1 + r = att + (r + 1) := by omega
    rw [this]

theorem upload_config_retry_success (fails : Nat → Bool) :
    ∀ (j rem att : Nat), j ≤ rem →
      (∀ n, att ≤ n → n < att + j → fails n = true) →
      fails (att + j) = false →
      upload_config_retry fails rem att = .ok (att + j) := by
  intro j
  induction j with
  | zero =>
    intro rem att _ _ hs
    rw [Nat.add_zero] at hs
    cases rem <;> simp [upload_config_retry, hs]
  | succ j ih =>
    intro rem att hle hf hs
    have hfa : fails att = true := hf att (Nat.le_refl att) (by omega)
    cases rem with
    | zero => omega
    | succ r =>
      simp only [upload_config_retry, hfa, if_pos, if_true]
      have hs2 : fails (att + 1 + j) = false := by
        have : att + 1 + j = att + (j + 1) := by omega
        rw [this]
        exact hs
      rw [ih r (att + 1) (by omega)
        (fun n h1 h2 => hf n (by omega) (by omega)) hs2]
      have : att + 1 + j = att + (j + 1) := by omega
      rw [this]

/-! ### Claims -/

/-- C1: in auto mode (`_auto_download_tool`), in every polling cycle a task
in the working set is removed in that cycle iff `is_task_end` returned true
for it that cycle (regardless of the download outcome); the failure list
grows exactly by the tasks whose `is_task_end` was true and whose download
attempt raised `DownloadFailed`; and once the working set drains, a
`DownloadFailed` aggregate error is raised iff the failure list is
non-empty, naming exactly the failed task ids. -/
theorem auto_mode_cycle_and_aggregate (env : Env) :
    (∀ (ts failed : List Nat) (endK oK c : Nat), ts.Nodup →
      ∀ i : Fin ts.length,
        (ts.get i ∈ (auto_download_tool_cycle env ts ts failed endK oK c).tasks ↔
          env.isEnd (endK + i.1) (ts.get i) = false)) ∧
    (∀ (ts failed : List Nat) (endK oK c : Nat),
      (auto_download_tool_cycle env ts ts failed endK oK c).failed =
        failed ++ auto_cycle_failures env ts endK oK c) ∧
    (∀ (fuel : Nat) (ts failed : List Nat) (endK oK c : Nat)
       (r : Except (List Nat × List Nat) (List Nat)),
      auto_download_tool env fuel ts failed endK oK c = some r →
      (∃ l, r = .error (l, []) ∧ failed <+: l ∧ l ≠ []) ∨
        (r = .ok [] ∧ failed = [])) := by
  refine ⟨?_, ?_, ?_⟩
  · intro ts failed endK oK c hnd i
    exact auto_download_tool_cycle_mem env ts ts failed endK oK c hnd hnd i
      (List.get_mem ts i.1 i.2)
  · intro ts failed endK oK c
    exact auto_download_tool_cycle_failed env ts ts failed endK oK c
  · intro fuel ts failed endK oK c r h
    exact auto_download_tool_drain env fuel ts failed endK oK c r h

theorem auto_mode_cycle_and_aggregate_witness :
    (((5 : Nat) ∈ (auto_download_tool_cycle envAllEnd [5] [5] [] 0 0 0).tasks ↔
        envAllEnd.isEnd 0 5 = false)) ∧
    ((∃ l, (Except.ok [] : Except (List Nat × List Nat) (List Nat)) =
          .error (l, []) ∧ ([] : List Nat) <+: l ∧ l ≠ []) ∨
      ((Except.ok [] : Except (List Nat × List Nat) (List Nat)) = .ok [] ∧
        ([] : List Nat) = [])) := by
  constructor
  · simpa using
      (auto_mode_cycle_and_aggregate envAllEnd).1 [5] [] 0 0 0 (by decide)
        ⟨0, by decide⟩
  · exact (auto_mode_cycle_and_aggregate envAllEnd).2.2 2 [5] [] 0 0 0
      (.ok []) rfl

/-- C2 is refuted: in `auto_download_after_task_completed` the transfer for
an ended task is not wrapped in try/except, so a single task's transfer
failure raises `DownloadFailed` immediately, while the working set
(`[1, 2]`, carried by the error) has not drained. -/
theorem after_completed_raises_midloop :
    auto_download_after_task_completed envEndFail 3 [1, 2] 0 0 0 [] =
      some (.error ([1, 2], [("f1", 1)])) ∧ ([1, 2] : List Nat) ≠ [] :=
  ⟨rfl, by decide⟩

/-- C2 (amended): a single task's transfer failure never raises mid-loop in
`auto_download` (via `_auto_download_tool`, whose only surfaced error is the
post-drain aggregate carrying a non-empty failure list) and in
`download_block` (which catches every per-task `DownloadFailed`, so absent
the illegal status code the loop never raises); in
`auto_download_after_task_completed` and
`auto_download_cc_after_task_completed` the transfer call is uncaught and a
failure raises immediately, before the working set drains. -/
theorem aggregate_error_only_after_drain :
    (∀ (env : Env) (fuel : Nat) (ts failed : List Nat) (endK oK c : Nat)
       (r : Except (List Nat × List Nat) (List Nat)),
      auto_download_tool env fuel ts failed endK oK c = some r →
      (∃ fin, r = .ok fin) ∨ (∃ l, r = .error (l, []) ∧ l ≠ [])) ∧
    (∀ (env : Env) (dt : Option String),
      (∀ k t, "45" ∉ env.subStatus k t) →
      ∀ (fuel : Nat) (ts : List Nat) (oK c : Nat) (log : List (String × Nat))
        (e : List (String × Nat)),
        download_block env dt fuel ts oK c log ≠ some (.error e)) := by
  constructor
  · intro env fuel ts failed endK oK c r h
    rcases auto_download_tool_drain env fuel ts failed endK oK c r h with
      ⟨l, hr, -, hne⟩ | ⟨hr, -⟩
    · exact .inr ⟨l, hr, hne⟩
    · exact .inl ⟨[], hr⟩
  · intro env dt h45 fuel ts oK c log e
    exact download_block_noerror env dt h45 fuel ts oK c log e

theorem aggregate_error_only_after_drain_witness :
    ((∃ fin, (Except.ok [] : Except (List Nat × List Nat) (List Nat)) =
        .ok fin) ∨
      (∃ l, (Except.ok [] : Except (List Nat × List Nat) (List Nat)) =
        .error (l, []) ∧ l ≠ [])) ∧
    (download_block envAllEnd none 1 [4] 0 0 [] ≠ some (.error [])) := by
  constructor
  · exact (aggregate_error_only_after_drain).1 envAllEnd 2 [5] [] 0 0 0
      (.ok []) rfl
  · exact (aggregate_error_only_after_drain).2 envAllEnd none
      (fun k t => by simp [envAllEnd]) 1 [4] 0 0 [] []

/-- C3 is refuted: with the default `download_type=None`, `download_block`
judges task 7 complete (status '25'), `_run_cc_download` takes neither the
'block' nor the 'render' branch so NO transfer command is run (empty log),
and the task is still removed from the working set. -/
theorem download_block_none_removes_without_transfer :
    download_block_cycle envAll25 none [] [7] false 0 0 [] =
      .ok ⟨[], 1, 0, []⟩ ∧ (7 : Nat) ∉ ([] : List Nat) :=
  ⟨rfl, by decide⟩

/-- C3 (amended): in block mode with `download_type` 'block' or 'render',
whenever a task id is removed from the working set a transfer command for
that task was invoked and returned exit code 0 (it appears in the log);
for every other `download_type` — including the default `None` — the
transfer step runs no command at all (the log never grows), yet tasks
judged complete are still removed. -/
theorem download_block_removal_transfer_contract :
    (∀ (env : Env) (rem pre : List Nat) (skip : Bool) (oK c : Nat)
       (log : List (String × Nat)) (out : CycleOut) (x : Nat),
       download_block_cycle env (some "block") pre rem skip oK c log = .ok out →
       x ∈ pre ++ rem → x ∉ out.tasks →
       (toString x ++ "\\at_result", 0) ∈ out.log) ∧
    (∀ (env : Env) (rem pre : List Nat) (skip : Bool) (oK c : Nat)
       (log : List (String × Nat)) (out : CycleOut) (x : Nat),
       download_block_cycle env (some "render") pre rem skip oK c log = .ok out →
       x ∈ pre ++ rem → x ∉ out.tasks →
       (toString x ++ "\\render_result", 0) ∈ out.log) ∧
    (∀ (env : Env) (dt : Option String),
       dt ≠ some "block" → dt ≠ some "render" →
       ∀ (rem pre : List Nat) (skip : Bool) (oK c : Nat)
         (log : List (String × Nat)) (out : CycleOut),
         download_block_cycle env dt pre rem skip oK c log = .ok out →
         out.log = log) := by
  refine ⟨?_, ?_, ?_⟩
  · intro env
    exact download_block_cycle_removed_logged env (some "block")
      (fun x => toString x ++ "\\at_result")
      (fun x c => run_cc_download_block env x c)
  · intro env
    exact download_block_cycle_removed_logged env (some "render")
      (fun x => toString x ++ "\\render_result")
      (fun x c => run_cc_download_render env x c)
  · intro env dt h1 h2
    exact download_block_cycle_log_const env dt h1 h2

theorem download_block_removal_transfer_contract_witness :
    (download_block_cycle envAll25 (some "block") [] [7] false 0 0 [] =
      .ok ⟨[], 1, 1, [("7\\at_result", 0)]⟩) ∧
    ("7\\at_result", 0) ∈ [("7\\at_result", (0 : Nat))] := by
  refine ⟨rfl, ?_⟩
  exact (download_block_removal_transfer_contract).1 envAll25 [7] [] false 0 0
    [] ⟨[], 1, 1, [("7\\at_result", 0)]⟩ 7 rfl (by decide) (by decide)

/-- C4 is refuted: when the polled sub-task status list is exactly `['45']`,
its status set has exactly one element and the render-type condition can
hold, so the claimed fire condition is satisfied, yet the iteration aborts
on the illegal-status assertion and the transfer does NOT fire. -/
theorem cc_fire_predicate_fails_on_illegal :
    is_done ["45"] = true ∧
    ("Rebuild" ∈ (["Rebuild", "a", "b"] : List String) ∧
      2 < (["Rebuild", "a", "b"] : List String).length) ∧
    cc_task_step ["45"] ["Rebuild", "a", "b"] ≠ .fired :=
  ⟨rfl, ⟨by decide, by decide⟩, by decide⟩

/-- C4 (amended): in rebuild-aware mode, provided '45' is not among the
polled sub-task status codes, the transfer fires iff the status set has
exactly one element or exactly the sorted pair `['25', '30']`, AND the
render-type list contains 'Rebuild' and has length greater than 2; when
'45' is present the iteration aborts instead and never fires. -/
theorem cc_fire_iff_without_illegal (subs rts : List String)
    (h45 : "45" ∉ subs) :
    cc_task_step subs rts = .fired ↔
      ("Rebuild" ∈ rts ∧ 2 < rts.length ∧ is_done subs = true) := by
  by_cases hc : "Rebuild" ∈ rts ∧ 2 < rts.length ∧ is_done subs = true
  · simp [cc_task_step, h45, hc]
  · simp [cc_task_step, h45, hc]

theorem cc_fire_iff_without_illegal_witness :
    ("45" ∉ (["25", "30"] : List String)) ∧
    (cc_task_step ["25", "30"] ["Rebuild", "a", "b"] = .fired ↔
      ("Rebuild" ∈ (["Rebuild", "a", "b"] : List String) ∧
        2 < (["Rebuild", "a", "b"] : List String).length ∧
        is_done ["25", "30"] = true)) :=
  ⟨by decide, cc_fire_iff_without_illegal ["25", "30"] ["Rebuild", "a", "b"]
    (by decide)⟩

/-- C5 is refuted: `download_block` checks '25' in the FLATTENED statuses of
the whole working set (`get_task_status(task_id_list)` inside the per-task
loop), so task 2 — whose own sub-task statuses are `['20']`, with no '25' —
is judged complete, its transfer fires (log entry) and it is removed,
merely because task 1 in the same working set has a '25' sub-task. -/
theorem block_completion_cross_task :
    download_block_cycle envSplit25 (some "block") [] [2, 1] false 0 0 [] =
      .ok ⟨[1], 1, 1, [("2\\at_result", 0)]⟩ ∧
    "25" ∉ envSplit25.subStatus 0 2 :=
  ⟨rfl, by decide⟩

/-- C5 (amended): in block mode a task is judged complete — and its transfer
fired — in its iteration iff the flattened sub-task status list of ALL
tasks in the current working set contains '25'; the decision therefore
depends on the other tasks' statuses: if no task anywhere reports '25' the
cycle removes nothing and runs no transfer, while if the aggregate of the
working set contains '25' the first task is downloaded and removed even
when the '25' belongs to another task. -/
theorem block_completion_uses_aggregate :
    (∀ (env : Env) (dt : Option String) (ts : List Nat) (oK c : Nat)
       (log : List (String × Nat)),
       (∀ k t, "25" ∉ env.subStatus k t) →
       (∀ k t, "45" ∉ env.subStatus k t) →
       download_block_cycle env dt [] ts false oK c log =
         .ok ⟨ts, oK + ts.length, c, log⟩) ∧
    (∀ (env : Env) (cur : Nat) (rest : List Nat) (oK c : Nat)
       (log : List (String × Nat)),
       (cur :: rest).Nodup →
       (∀ k t, "45" ∉ env.subStatus k t) →
       "25" ∈ aggSubs env oK (cur :: rest) →
       env.exitCode c = 0 →
       ∃ out,
         download_block_cycle env (some "block") [] (cur :: rest) false oK c
             log = .ok out ∧
           cur ∉ out.tasks ∧
           (toString cur ++ "\\at_result", 0) ∈ out.log) := by
  constructor
  · intro env dt ts oK c log h25 h45
    simpa using download_block_cycle_noop env dt h25 h45 ts [] oK c log
  · intro env cur rest oK c log hnd h45 hmem25 hexit
    have h45x : "45" ∉ aggSubs env oK (cur :: rest) := by
      rw [aggSubs_mem]
      rintro ⟨t, -, hmemt⟩
      exact h45 _ t hmemt
    have hrun : run_cc_download env [cur] (some "block") c =
        ⟨.ok (), c + 1, [(toString cur ++ "\\at_result", 0)]⟩ := by
      rw [run_cc_download_block, cmdLoop_single_ok env _ c hexit]
    obtain ⟨out, hout⟩ := download_block_cycle_ok env (some "block") h45 rest
      [] true (oK + 1) (c + 1) (log ++ [(toString cur ++ "\\at_result", 0)])
    refine ⟨out, ?_, ?_, ?_⟩
    · simp only [download_block_cycle, List.nil_append, h45x, hmem25,
        if_pos, if_true, if_neg, if_false, hrun]
      simpa using hout
    · intro hcur
      have hsub := download_block_cycle_sublist env (some "block") rest []
        true _ _ _ out hout
      have hmem := hsub.mem hcur
      simp only [List.nil_append] at hmem
      exact (List.nodup_cons.mp hnd).1 hmem
    · have hpre := download_block_cycle_log_prefix env (some "block") rest []
        true _ _ _ out hout
      exact hpre.sublist.mem (by simp)

theorem block_completion_uses_aggregate_witness :
    download_block_cycle envAll20 none [] [4] false 0 0 [] =
      .ok ⟨[4], 0 + [4].length, 0, []⟩ := by
  exact (block_completion_uses_aggregate).1 envAll20 none [4] 0 0 []
    (fun k t => by simp [envAll20]) (fun k t => by simp [envAll20])

/-- C6: the retry wrapper of `upload_config`, for one transfer command:
with an always-failing command the terminal `RayvisionError` is raised
exactly at the 10th failed `run_cmd` invocation (not the 9th, not an 11th);
with a command first succeeding at attempt k ≤ 10 the loop returns normally
after exactly k invocations. -/
theorem upload_config_retry_budget (fails : Nat → Bool) :
    ((∀ n, fails n = true) → upload_config fails = .error 10) ∧
    (∀ k, 1 ≤ k → k ≤ 10 →
      (∀ n, 1 ≤ n → n < k → fails n = true) → fails k = false →
      upload_config fails = .ok k) := by
  constructor
  · intro h
    rw [upload_config, upload_config_retry_allFail fails h 9 1]
  · intro k h1 h10 hf hk
    rw [upload_config]
    have hstep := upload_config_retry_success fails (k - 1) 9 1 (by omega)
      (fun n hn1 hn2 => hf n hn1 (by omega))
      (by rw [show 1 + (k - 1) = k by omega]; exact hk)
    rw [hstep, show 1 + (k - 1) = k by omega]

theorem upload_config_retry_budget_witness :
    upload_config (fun _ => true) = .error 10 ∧
      upload_config (fun n => decide (n < 3)) = .ok 3 := by
  constructor
  · exact (upload_config_retry_budget (fun _ => true)).1 (fun n => rfl)
  · refine (upload_config_retry_budget (fun n => decide (n < 3))).2 3
      (by decide) (by decide) ?_ (by decide)
    intro n h1 h2
    exact decide_eq_true h2

/-- C7 is refuted: the status oracle is re-polled once per task inside a
cycle and may change between polls, so a transfer can precede the abort in
the very cycle observing '45': here the first poll shows '25' (transfer for
task 1 is invoked and fails), the second poll shows '45' and the assertion
aborts — with a non-empty transfer log for that cycle. -/
theorem block_transfer_precedes_abort :
    download_block_cycle envShift45 (some "block") [] [1, 2] false 0 0 [] =
      .error [("1\\at_result", 1)] ∧
    ([("1\\at_result", 1)] : List (String × Nat)) ≠ [] :=
  ⟨rfl, by decide⟩

/-- C7 (amended): in the status-querying variants an iteration whose own
poll contains '45' aborts at once, before its transfer and all later ones:
in particular when the FIRST poll of a cycle contains '45' the cycle aborts
with no transfer invoked at all (the log is returned unchanged), in both
`download_block` and `auto_download_cc_after_task_completed`.  Since
statuses are re-polled per task, transfers made under earlier '45'-free
polls of the same cycle may already have run. -/
theorem illegal_aborts_cycle_on_first_poll :
    (∀ (env : Env) (dt : Option String) (cur : Nat) (rest : List Nat)
       (oK c : Nat) (log : List (String × Nat)),
       "45" ∈ aggSubs env oK (cur :: rest) →
       download_block_cycle env dt [] (cur :: rest) false oK c log =
         .error log) ∧
    (∀ (env : Env) (dt : Option String) (cur : Nat) (rest : List Nat)
       (oK c : Nat) (log : List (String × Nat)),
       "45" ∈ aggSubs env oK (cur :: rest) →
       auto_download_cc_cycle env dt [] (cur :: rest) false oK c log =
         .error (.assertIllegal, log)) := by
  constructor
  · intro env dt cur rest oK c log h
    simp [download_block_cycle, h]
  · intro env dt cur rest oK c log h
    simp [auto_download_cc_cycle, cc_task_step, h]

theorem illegal_aborts_cycle_witness :
    ("45" ∈ aggSubs envAll45 0 [9]) ∧
      download_block_cycle envAll45 none [] [9] false 0 0 [] = .error [] := by
  have h : "45" ∈ aggSubs envAll45 0 [9] := by decide
  exact ⟨h, (illegal_aborts_cycle_on_first_poll).1 envAll45 none 9 [] 0 0 [] h⟩

/-- C8: for every polling orchestrator variant the per-cycle working set is
a sublist of the cycle's input (task ids are only removed, never added, so
the size never grows), and each outer loop exits normally exactly at the
empty-working-set check: a normal (`.ok`) exit always carries the empty
working set, and an empty working set exits immediately. -/
theorem working_set_monotone_and_exit :
    (∀ (env : Env) (dt : Option String) (rem pre : List Nat) (skip : Bool)
       (oK c : Nat) (log : List (String × Nat)) (out : CycleOut),
       download_block_cycle env dt pre rem skip oK c log = .ok out →
       out.tasks.Sublist (pre ++ rem)) ∧
    (∀ (env : Env) (dt : Option String) (rem pre : List Nat) (skip : Bool)
       (oK c : Nat) (log : List (String × Nat)) (out : CycleOut),
       auto_download_cc_cycle env dt pre rem skip oK c log = .ok out →
       out.tasks.Sublist (pre ++ rem)) ∧
    (∀ (env : Env) (rem pre : List Nat) (skip : Bool) (endK oK c : Nat)
       (log : List (String × Nat)) (out : AfterOut),
       auto_after_cycle env pre rem skip endK oK c log = .ok out →
       out.tasks.Sublist (pre ++ rem)) ∧
    (∀ (env : Env) (proc copy failed : List Nat) (endK oK c : Nat),
       (auto_download_tool_cycle env proc copy failed endK oK c).tasks.Sublist
         copy) ∧
    (∀ (env : Env) (dt : Option String) (fuel : Nat) (ts : List Nat)
       (oK c : Nat) (log : List (String × Nat)) (fin : List Nat)
       (lg : List (String × Nat)),
       download_block env dt fuel ts oK c log = some (.ok (fin, lg)) →
       fin = []) ∧
    (∀ (env : Env) (dt : Option String) (fuel : Nat) (ts : List Nat)
       (oK c : Nat) (log : List (String × Nat)) (fin : List Nat)
       (lg : List (String × Nat)),
       auto_download_cc env dt fuel ts oK c log = some (.ok (fin, lg)) →
       fin = []) ∧
    (∀ (env : Env) (fuel : Nat) (ts : List Nat) (endK oK c : Nat)
       (log : List (String × Nat)) (fin : List Nat)
       (lg : List (String × Nat)),
       auto_download_after_task_completed env fuel ts endK oK c log =
         some (.ok (fin, lg)) → fin = []) ∧
    (∀ (env : Env) (fuel : Nat) (ts failed : List Nat) (endK oK c : Nat)
       (fin : List Nat),
       auto_download_tool env fuel ts failed endK oK c = some (.ok fin) →
       fin = []) ∧
    (∀ (env : Env) (dt : Option String) (fuel oK c : Nat)
       (log : List (String × Nat)),
       download_block env dt (fuel + 1) [] oK c log = some (.ok ([], log))) := by
  refine ⟨?_, ?_, ?_, ?_, ?_, ?_, ?_, ?_, ?_⟩
  · intro env dt rem pre skip oK c log out h
    exact download_block_cycle_sublist env dt rem pre skip oK c log out h
  · intro env dt rem pre skip oK c log out h
    exact auto_download_cc_cycle_sublist env dt rem pre skip oK c log out h
  · intro env rem pre skip endK oK c log out h
    exact auto_after_cycle_sublist env rem pre skip endK oK c log out h
  · intro env proc copy failed endK oK c
    exact auto_download_tool_cycle_sublist env proc copy failed endK oK c
  · intro env dt fuel ts oK c log fin lg h
    exact download_block_drained env dt fuel ts oK c log fin lg h
  · intro env dt fuel ts oK c log fin lg h
    exact auto_download_cc_drained env dt fuel ts oK c log fin lg h
  · intro env fuel ts endK oK c log fin lg h
    exact auto_download_after_drained env fuel ts endK oK c log fin lg h
  · intro env fuel ts failed endK oK c fin h
    rcases auto_download_tool_drain env fuel ts failed endK oK c (.ok fin) h
      with ⟨l, hr, -, -⟩ | ⟨hr, -⟩
    · cases hr
    · simpa using hr
  · intro env dt fuel oK c log
    simp [download_block]

theorem working_set_monotone_and_exit_witness :
    (download_block_cycle envAll25 none [] [7] false 0 0 [] =
      .ok ⟨[], 1, 0, []⟩) ∧
    (([] : List Nat).Sublist ([] ++ [7])) ∧
    (download_block envAll25 none 2 [7] 0 0 [] = some (.ok ([], []))) ∧
    (([] : List Nat) = []) := by
  refine ⟨rfl, ?_, rfl, ?_⟩
  · exact (working_set_monotone_and_exit).1 envAll25 none [7] [] false 0 0 []
      ⟨[], 1, 0, []⟩ rfl
  · exact (working_set_monotone_and_exit).2.2.2.2.1 envAll25 none 2 [7] 0 0
      [] [] [] rfl

/-- C9 is refuted: in one cycle of `download_block` over the two-task
working set `[1, 2]` (no task completes), the oracle-call counter advances
from 0 to 2 — `get_task_status` is called once per task id in the working
set (from inside the `for` loop), not exactly once per cycle. -/
theorem oracle_called_per_task_not_per_cycle :
    download_block_cycle envAll20 none [] [1, 2] false 0 0 [] =
      .ok ⟨[1, 2], 2, 0, []⟩ ∧ (2 : Nat) ≠ 1 :=
  ⟨rfl, by decide⟩

/-- C9 (amended): in each polling cycle of the status-querying variants,
`get_task_status` is called once per task id processed in that cycle — each
call passing the full current working set — rather than once per cycle: in
a cycle where no task is judged complete the number of oracle calls equals
the working-set size. -/
theorem oracle_calls_once_per_processed_task :
    (∀ (env : Env) (dt : Option String) (ts : List Nat) (oK c : Nat)
       (log : List (String × Nat)),
       (∀ k t, "25" ∉ env.subStatus k t) →
       (∀ k t, "45" ∉ env.subStatus k t) →
       ∃ out, download_block_cycle env dt [] ts false oK c log = .ok out ∧
         out.oK = oK + ts.length) ∧
    (∀ (env : Env) (dt : Option String) (ts : List Nat) (oK c : Nat)
       (log : List (String × Nat)),
       (∀ k t, "45" ∉ env.subStatus k t) →
       (∀ k t, "Rebuild" ∉ env.renderTypes k t) →
       ∃ out, auto_download_cc_cycle env dt [] ts false oK c log = .ok out ∧
         out.oK = oK + ts.length) := by
  constructor
  · intro env dt ts oK c log h25 h45
    refine ⟨⟨[] ++ ts, oK + ts.length, c, log⟩, ?_, rfl⟩
    exact download_block_cycle_noop env dt h25 h45 ts [] oK c log
  · intro env dt ts oK c log h45 hrb
    refine ⟨⟨[] ++ ts, oK + ts.length, c, log⟩, ?_, rfl⟩
    exact auto_download_cc_cycle_noop env dt h45 hrb ts [] oK c log

theorem oracle_calls_once_per_processed_task_witness :
    ∃ out, download_block_cycle envAll20 none [] [1, 2] false 0 0 [] =
      .ok out ∧ out.oK = 0 + ([1, 2] : List Nat).length := by
  exact (oracle_calls_once_per_processed_task).1 envAll20 none [1, 2] 0 0 []
    (fun k t => by simp [envAll20]) (fun k t => by simp [envAll20])

/-- C10: `thread_pool_upload` pops 'is_db' from the kwargs before the
submission loop, so a missing 'is_db' key raises KeyError with no unit
submitted; when the key is present, exactly one `upload_asset` unit is
submitted per element of `upload_pool` (in order, with that element as its
upload json path) and every unit is forced to `is_db=False` regardless of
the value the caller passed. -/
theorem thread_pool_upload_contract (uploadPool : List String)
    (kwargs : List (String × String)) :
    ((kwargs.lookup "is_db" = none) →
      thread_pool_upload uploadPool kwargs = .error ()) ∧
    (∀ v, kwargs.lookup "is_db" = some v →
      ∃ subs, thread_pool_upload uploadPool kwargs = .ok subs ∧
        subs.length = uploadPool.length ∧
        (∀ s ∈ subs, s.isDb = false) ∧
        subs.map (fun s => s.uploadJsonPath) = uploadPool) := by
  constructor
  · intro h
    simp [thread_pool_upload, popKey, h]
  · intro v h
    refine ⟨uploadPool.map fun p =>
      ⟨p, false, kwargs.filter fun q => q.1 ≠ "is_db"⟩, ?_, ?_, ?_, ?_⟩
    · simp [thread_pool_upload, popKey, h]
    · simp
    · intro s hs
      rcases List.mem_map.mp hs with ⟨p, -, hp⟩
      rw [← hp]
    · simp [Function.comp_def]

theorem thread_pool_upload_contract_witness :
    ((["a", "b"] : List String) ≠ [] ∧
      ([("is_db", "True"), ("x", "1")] : List (String × String)).lookup
        "is_db" = some "True") ∧
    (∃ subs, thread_pool_upload ["a", "b"] [("is_db", "True"), ("x", "1")] =
      .ok subs ∧ subs.length = (["a", "b"] : List String).length ∧
      (∀ s ∈ subs, s.isDb = false) ∧
      subs.map (fun s => s.uploadJsonPath) = ["a", "b"]) := by
  refine ⟨⟨by decide, rfl⟩, ?_⟩
  exact (thread_pool_upload_contract ["a", "b"]
    [("is_db", "True"), ("x", "1")]).2 "True" rfl

end DayanSync
